import Mathlib

/-!
Verification of the alexandrie crate-registry download path.

The development shallowly embeds the two source files of the repository:

* `src/alexandrie/src/api/crates/download.rs` — the download handler `get`,
  which canonicalizes the crate name, runs one database transaction that
  selects the crate row by canonical name, increments its download counter,
  reads the artifact from the storage backend, and builds a streamed
  `application/octet-stream` response; any error rolls the transaction back.
* `src/alexandrie/src/main.rs` — the `api_routes` terminal `After`
  middleware, which rewrites every error-carrying response into a
  status-200 JSON body holding an array of error objects.

Collaborators that live outside the two source files (the canonicalization
helper, the semver parser, the error enum, the storage backend and the
transactional repository) are modelled from the specification; each such
definition carries a doc comment starting with `Modelled from the spec:`.
-/

/-- One row of the `crates` table, restricted to the columns the download
handler touches: `name` (display form), `canon_name` (lookup key) and
`downloads` (the i64 counter, pinned by `first::<(String, i64)>`; embedded
as an `Int` constrained to the i64 range by `DB.wf`, with the increment
wrapping via `wrap64`). -/
structure CrateRow where
  name : String
  canon_name : String
  downloads : Int
deriving DecidableEq, Repr

/-- The database state relevant to the handler: the list of crate rows. -/
structure DB where
  rows : List CrateRow
deriving DecidableEq, Repr

/-- Two's-complement wrap of an i64 arithmetic result into
`[-2 ^ 63, 2 ^ 63)`, as Rust release-mode `i64` addition behaves in the
`downloads + 1` of the handler. -/
def wrap64 (x : Int) : Int :=
  (x + 2 ^ 63) % 2 ^ 64 - 2 ^ 63

/-- Modelled from the spec: `utils::canonical_name` (in `utils.rs`, not under
`src/`) — the canonical name is the case-folded form of the display name with
hyphens unified to underscores. -/
def canonical_name (name : String) : String :=
  ⟨name.data.map (fun c => if c = '-' then '_' else c.toLower)⟩

/-- Well-formedness of a database state: `canon_name` is the deterministic
canonicalization of `name` and is unique across all rows (the data-model
invariant of the spec), and every counter is representable as an i64 (the
column type the source reads with `first::<(String, i64)>`). -/
def DB.wf (db : DB) : Prop :=
  (∀ r ∈ db.rows,
    r.canon_name = canonical_name r.name ∧
      -(2 ^ 63) ≤ r.downloads ∧ r.downloads < 2 ^ 63) ∧
    db.rows.Pairwise (fun a b => a.canon_name ≠ b.canon_name)

instance (db : DB) : Decidable db.wf := by
  unfold DB.wf; infer_instance

/-- A parsed semantic version (the `semver::Version` fields the handler
forwards to the store). -/
structure Version where
  major : Nat
  minor : Nat
  patch : Nat
deriving DecidableEq, Repr

/-- Reads a nonempty all-digit string as a natural number. -/
def digitsToNat (l : List Char) : Option Nat :=
  match l with
  | [] => none
  | _ =>
    l.foldl
      (fun acc c =>
        acc.bind fun n => if c.isDigit then some (n * 10 + (c.toNat - 48)) else none)
      (some 0)

/-- Splits a character list on dots. -/
def splitDots : List Char → List (List Char)
  | [] => [[]]
  | c :: rest =>
    if c = '.' then [] :: splitDots rest
    else
      match splitDots rest with
      | [] => [[c]]
      | h :: t => (c :: h) :: t

/-- Modelled from the spec: the semantic-version parser used by
`req.param::<Version>("version")` (the `semver` crate, not under `src/`) —
a version path segment is valid when it is three dot-separated numeric
components; anything else is rejected. -/
def parseVersion (s : String) : Option Version :=
  match (splitDots s.data).map digitsToNat with
  | [some a, some b, some c] => some ⟨a, b, c⟩
  | _ => none

/-- Modelled from the spec: the outcome of asking the artifact store for the
bytes of `(name, version)` and draining the returned reader
(`alexandrie_storage::Store::read_crate` plus `read_to_end`, not under
`src/`) — either the full byte sequence, a distinct `NotFound` outcome, or a
backend I/O error. -/
inductive StoreResult where
  | found (bytes : List Nat)
  | notFound
  | ioError
deriving DecidableEq, Repr

/-- An artifact store, keyed by display name and version as in the handler
call `state.storage.read_crate(&name, version)`. -/
def Store : Type := String → Version → StoreResult

/-- Modelled from the spec: the handler-level error taxonomy
(`crate::error::AlexError`, not under `src/`) — crate-not-found carries the
looked-up name; artifact-not-found and storage I/O failures are distinct
kinds. -/
inductive DlError where
  | crateNotFound (name : String)
  | artifactNotFound
  | storageIo
deriving DecidableEq, Repr

/-- Modelled from the spec: the human-readable `detail` string of an error
(its `Display` impl in `error.rs`, not under `src/`). -/
def errDetail : DlError → String
  | .crateNotFound name => "no crate named " ++ name ++ " has been found"
  | .artifactNotFound => "the artifact could not be found"
  | .storageIo => "storage error"

/-- Modelled from the spec: the HTTP status a handler error carries before
the terminal middleware runs (assigned in `error.rs`, not under `src/`),
following the interface table of the spec. -/
def errStatus : DlError → Nat
  | .crateNotFound _ => 404
  | .artifactNotFound => 404
  | .storageIo => 500

/-- The body of a response: either raw bytes (the streamed tarball) or the
JSON error payload built by the terminal middleware,
`\x7b "errors": [\x7b "detail": d \x7d, ...] \x7d`, kept structural. -/
inductive BodyContent where
  | bytes (b : List Nat)
  | jsonErrors (details : List String)
deriving DecidableEq, Repr

/-- A `tide::Response`: status, content type, body, and the error the
response may carry (as observed by `res.error()` in the middleware). -/
structure Response where
  status : Nat
  contentType : Option String
  body : BodyContent
  error : Option DlError
deriving DecidableEq, Repr

/-- The diesel query
`crates::table.select((crates::name, crates::downloads))
.filter(crates::canon_name.eq(name)).first(conn).optional()`:
the first row whose `canon_name` equals the key, projected to
`(name, downloads)`. -/
def selectFirstByCanon (db : DB) (canon : String) : Option (String × Int) :=
  (db.rows.find? (fun r => r.canon_name == canon)).map (fun r => (r.name, r.downloads))

/-- The effect of the counter update on one row: a row whose display `name`
equals the filter key gets its `downloads` column set to `v`; any other row
is untouched. -/
def setDownloads (name : String) (v : Int) (r : CrateRow) : CrateRow :=
  if r.name == name then { r with downloads := v } else r

/-- The diesel statement
`diesel::update(crates::table.filter(crates::name.eq(name)))
.set(crates::downloads.eq(v))`: every row whose display `name` equals the
key gets its `downloads` column set to `v`. -/
def updateDownloadsByName (db : DB) (name : String) (v : Int) : DB :=
  ⟨db.rows.map (setDownloads name v)⟩

/-- The closure passed to `repo.transaction` in the download handler: select
the row by canonical name; if present, set its download counter to the read
value plus one in wrapping i64 arithmetic (filtering by display name, as
the source does), read the
artifact for the row's display name, and build the 200 response; if absent,
fail with `CrateNotFound` carrying the canonicalized name. Returns the
database state as mutated by the statements issued so far together with the
closure's result. -/
def downloadWork (store : Store) (version : Version) (canon : String) (db : DB) :
    DB × Except DlError Response :=
  match selectFirstByCanon db canon with
  | some (name, downloads) =>
    let db' := updateDownloadsByName db name (wrap64 (downloads + 1))
    match store name version with
    | .found bytes =>
      (db', .ok { status := 200, contentType := some "application/octet-stream",
                  body := .bytes bytes, error := none })
    | .notFound => (db', .error .artifactNotFound)
    | .ioError => (db', .error .storageIo)
  | none => (db, .error (.crateNotFound canon))

/-- Modelled from the spec: the transactional repository
(`repo.transaction`, in `db/mod.rs`, not under `src/`) — the unit of work
commits its statements when the closure succeeds and rolls every statement
back when it fails, propagating the error unchanged. -/
def repoTransaction (work : DB → DB × Except DlError Response) (db : DB) :
    DB × Except DlError Response :=
  match work db with
  | (db', .ok r) => (db', .ok r)
  | (_, .error e) => (db, .error e)

deriving instance DecidableEq for Except

/-- The observable outcome of one invocation of the download handler: either
a completed execution with the resulting database state and handler result,
or a panic (the `.unwrap()` on the version parse firing). -/
inductive HandlerOutcome where
  | response (db : DB) (result : Except DlError Response)
  | panicked
deriving DecidableEq, Repr

/-- The download handler `get` of `download.rs` (Rust path
`api::crates::download::get`): read the `name` and `version` path parameters
(the version unwrap panics when the segment is not a valid semantic
version), canonicalize the name, and run the transactional unit of work. -/
def download.get (store : Store) (rawName rawVersion : String) (db : DB) : HandlerOutcome :=
  match parseVersion rawVersion with
  | none => .panicked
  | some version =>
    let canon := canonical_name rawName
    let (db', res) := repoTransaction (downloadWork store version canon) db
    .response db' res

/-- The database state after one handler invocation (unchanged when the
handler panics before issuing any statement). -/
def getDB (store : Store) (rawName rawVersion : String) (db : DB) : DB :=
  match download.get store rawName rawVersion db with
  | .response db' _ => db'
  | .panicked => db

/-- The download counter of the crate row matched by a canonical name, if
any. -/
def downloadsOf (db : DB) (canon : String) : Option Int :=
  (db.rows.find? (fun r => r.canon_name == canon)).map (fun r => r.downloads)

/-- Modelled from the spec: how tide turns a handler result into the
response seen by the `After` middleware (tide internals, not under `src/`) —
a success passes through unchanged, an error becomes a response that carries
the error, with the internal status of the error kind. -/
def toResponse : Except DlError Response → Response
  | .ok r => r
  | .error e => { status := errStatus e, contentType := none,
                  body := .bytes [], error := some e }

/-- The terminal `After` middleware of `api_routes` in `main.rs`: when the
response carries an error, set the status to 200, the content type to JSON,
and the body to `\x7b "errors": [\x7b "detail": err.to_string() \x7d] \x7d`;
otherwise return the response unchanged. -/
def errorMiddleware (res : Response) : Response :=
  match res.error with
  | some err =>
    { res with status := 200, contentType := some "application/json",
               body := .jsonErrors [errDetail err] }
  | none => res

/-- The externally visible response of one download request through the API
pipeline (`none` when the handler panicked and no response was produced). -/
def apiDownload (store : Store) (rawName rawVersion : String) (db : DB) :
    Option Response :=
  match download.get store rawName rawVersion db with
  | .response _ res => some (errorMiddleware (toResponse res))
  | .panicked => none

/-- The progress of one in-flight download request through the two database
statements its transaction issues: not yet read, read done (holding the
`(name, downloads)` pair the select returned), or finished. -/
inductive Phase where
  | start
  | readDone (name : String) (downloads : Int)
  | finished
deriving DecidableEq, Repr

/-- One database statement of one in-flight download of the crate with
canonical name `canon`, exactly as the handler issues them: from `start`,
run the select by canonical name (finishing with a rollback when no row
matches); after the read, run the update that sets the counter of every row
with the read display name to the read value plus one. -/
def stepClient (canon : String) (db : DB) : Phase → DB × Phase
  | .start =>
    match selectFirstByCanon db canon with
    | some (name, downloads) => (db, .readDone name downloads)
    | none => (db, .finished)
  | .readDone name downloads =>
    (updateDownloadsByName db name (wrap64 (downloads + 1)), .finished)
  | .finished => (db, .finished)

/-- Runs a schedule over a pool of in-flight downloads of the same crate:
each schedule entry names the client whose next database statement executes,
modelling the statement-level interleaving the database permits when the
transactions are not serialized. Out-of-range entries are skipped. -/
def runSched (canon : String) : List Nat → DB × List Phase → DB × List Phase
  | [], s => s
  | i :: rest, (db, ps) =>
    match ps[i]? with
    | some p =>
      let (db', p') := stepClient canon db p
      runSched canon rest (db', ps.set i p')
    | none => runSched canon rest (db, ps)

/-- The database state after `n` sequential executions of the same download
request: each handler run starts only after the previous one committed. -/
def iterDownload (store : Store) (rawName rawVersion : String) : Nat → DB → DB
  | 0, db => db
  | n + 1, db => iterDownload store rawName rawVersion n (getDB store rawName rawVersion db)

/-- An artifact store fixture holding one artifact, the bytes `[7]` for the
crate named `foo` at version `1.0.0`. -/
def wstore : Store := fun name version =>
  if name == "foo" && version == (⟨1, 0, 0⟩ : Version) then .found [7] else .notFound

/-- An artifact store fixture holding the bytes `[7]` for every name and
version. -/
def allStore : Store := fun _ _ => .found [7]

/-! ### Basic lemmas about the embedded operations -/

theorem wrap64_lb (x : Int) : -(2 ^ 63) ≤ wrap64 x := by
  unfold wrap64
  omega

theorem wrap64_ub (x : Int) : wrap64 x < 2 ^ 63 := by
  unfold wrap64
  omega

theorem wrap64_eq_self {x : Int} (h1 : -(2 ^ 63) ≤ x) (h2 : x < 2 ^ 63) :
    wrap64 x = x := by
  unfold wrap64
  omega

theorem setDownloads_name (name : String) (v : Int) (r : CrateRow) :
    (setDownloads name v r).name = r.name := by
  unfold setDownloads; split <;> rfl

theorem setDownloads_canon (name : String) (v : Int) (r : CrateRow) :
    (setDownloads name v r).canon_name = r.canon_name := by
  unfold setDownloads; split <;> rfl

theorem find?_updateDownloadsByName (db : DB) (name : String) (v : Int) (c : String) :
    (updateDownloadsByName db name v).rows.find? (fun r => r.canon_name == c) =
      (db.rows.find? (fun r => r.canon_name == c)).map (setDownloads name v) := by
  have hp : ((fun r : CrateRow => r.canon_name == c) ∘ setDownloads name v) =
      fun r : CrateRow => r.canon_name == c := by
    funext r
    simp [Function.comp, setDownloads_canon]
  show (db.rows.map (setDownloads name v)).find? _ = _
  rw [List.find?_map, hp]

theorem wf_updateDownloadsByName {db : DB} (hwf : db.wf) (name : String) (v : Int)
    (hv1 : -(2 ^ 63) ≤ v) (hv2 : v < 2 ^ 63) :
    (updateDownloadsByName db name v).wf := by
  obtain ⟨h1, h2⟩ := hwf
  constructor
  · show ∀ r ∈ db.rows.map (setDownloads name v), _
    rw [List.forall_mem_map]
    intro r hr
    refine ⟨?_, ?_, ?_⟩
    · rw [setDownloads_canon, setDownloads_name]
      exact (h1 r hr).1
    · unfold setDownloads
      split
      · exact hv1
      · exact (h1 r hr).2.1
    · unfold setDownloads
      split
      · exact hv2
      · exact (h1 r hr).2.2
  · show (db.rows.map (setDownloads name v)).Pairwise _
    rw [List.pairwise_map]
    exact List.Pairwise.imp
      (fun hab => by simpa [setDownloads_canon] using hab) h2

theorem row_eq_of_canon_eq {db : DB} (hwf : db.wf) {a b : CrateRow}
    (ha : a ∈ db.rows) (hb : b ∈ db.rows) (h : a.canon_name = b.canon_name) :
    a = b := by
  by_contra hne
  have hsymm : Symmetric (fun a b : CrateRow => a.canon_name ≠ b.canon_name) :=
    fun x y hxy he => hxy he.symm
  exact List.Pairwise.forall hsymm hwf.2 ha hb hne h

theorem row_eq_of_name_eq {db : DB} (hwf : db.wf) {a b : CrateRow}
    (ha : a ∈ db.rows) (hb : b ∈ db.rows) (h : a.name = b.name) : a = b := by
  apply row_eq_of_canon_eq hwf ha hb
  rw [(hwf.1 a ha).1, (hwf.1 b hb).1, h]

/-- A complete case analysis of the download handler, unfolding the
transaction, the closure, and the two database statements. -/
theorem get_spec (store : Store) (rawName rawVersion : String) (db : DB) :
    download.get store rawName rawVersion db =
      match parseVersion rawVersion with
      | none => .panicked
      | some version =>
        match db.rows.find? (fun r => r.canon_name == canonical_name rawName) with
        | none => .response db (.error (.crateNotFound (canonical_name rawName)))
        | some r =>
          match store r.name version with
          | .found bytes =>
            .response (updateDownloadsByName db r.name (wrap64 (r.downloads + 1)))
              (.ok { status := 200, contentType := some "application/octet-stream",
                     body := .bytes bytes, error := none })
          | .notFound => .response db (.error .artifactNotFound)
          | .ioError => .response db (.error .storageIo) := by
  unfold download.get repoTransaction downloadWork selectFirstByCanon
  rcases parseVersion rawVersion with _ | version
  · rfl
  · rcases hf : db.rows.find? (fun r => r.canon_name == canonical_name rawName)
      with _ | r
    · simp [hf]
    · rcases hs : store r.name version with bytes | _ | _ <;> simp [hf, hs]


/-- The handler panics when the version segment fails to parse. -/
theorem get_panicked_eq (store : Store) (rawName rawVersion : String) (db : DB)
    (hv : parseVersion rawVersion = none) :
    download.get store rawName rawVersion db = .panicked := by
  simp only [get_spec, hv]

/-- The handler fails with `CrateNotFound` when no row matches the canonical
name, leaving the database unchanged. -/
theorem get_crate_not_found_eq (store : Store) (rawName rawVersion : String)
    (db : DB) (version : Version)
    (hv : parseVersion rawVersion = some version)
    (hf : db.rows.find? (fun row => row.canon_name == canonical_name rawName) = none) :
    download.get store rawName rawVersion db =
      .response db (.error (.crateNotFound (canonical_name rawName))) := by
  simp only [get_spec, hv, hf]

/-- The handler succeeds when the row is found and the store has the
artifact: the committed database carries the counter update and the response
streams the artifact bytes. -/
theorem get_found_eq (store : Store) (rawName rawVersion : String) (db : DB)
    (version : Version) (r : CrateRow) (bytes : List Nat)
    (hv : parseVersion rawVersion = some version)
    (hf : db.rows.find? (fun row => row.canon_name == canonical_name rawName) = some r)
    (hs : store r.name version = .found bytes) :
    download.get store rawName rawVersion db =
      .response (updateDownloadsByName db r.name (wrap64 (r.downloads + 1)))
        (.ok { status := 200, contentType := some "application/octet-stream",
               body := .bytes bytes, error := none }) := by
  simp only [get_spec, hv, hf, hs]

/-- The handler fails with the artifact-not-found error when the row exists
but the store lacks the artifact; the transaction rolls back. -/
theorem get_artifact_missing_eq (store : Store) (rawName rawVersion : String)
    (db : DB) (version : Version) (r : CrateRow)
    (hv : parseVersion rawVersion = some version)
    (hf : db.rows.find? (fun row => row.canon_name == canonical_name rawName) = some r)
    (hs : store r.name version = .notFound) :
    download.get store rawName rawVersion db =
      .response db (.error .artifactNotFound) := by
  simp only [get_spec, hv, hf, hs]

/-- The handler fails with the storage error when the store read fails; the
transaction rolls back. -/
theorem get_storage_io_eq (store : Store) (rawName rawVersion : String)
    (db : DB) (version : Version) (r : CrateRow)
    (hv : parseVersion rawVersion = some version)
    (hf : db.rows.find? (fun row => row.canon_name == canonical_name rawName) = some r)
    (hs : store r.name version = .ioError) :
    download.get store rawName rawVersion db =
      .response db (.error .storageIo) := by
  simp only [get_spec, hv, hf, hs]

/-! ### Claim theorems -/

/-- Claim C1 counterexample: at the well-formed boundary database where the
counter of `foo` is the i64 maximum, a successful download wraps the counter
to the i64 minimum — a decrease, and not an increase by one. -/
theorem download_count_wraps_at_max_cex :
    DB.wf ⟨[⟨"foo", "foo", 9223372036854775807⟩]⟩ ∧
    download.get allStore "foo" "1.0.0" ⟨[⟨"foo", "foo", 9223372036854775807⟩]⟩ =
      .response ⟨[⟨"foo", "foo", -9223372036854775808⟩]⟩
        (.ok ⟨200, some "application/octet-stream", .bytes [7], none⟩) ∧
    (-9223372036854775808 : Int) < 9223372036854775807 :=
  ⟨by decide, by decide, by decide⟩

/-- Claim C1 amended: for every well-formed database state containing the
crate row matched by the canonical name, one successful execution of the
download handler increases that crate download counter by exactly one
provided its current value is below the i64 maximum; no execution decreases
a counter whose value is below the i64 maximum (at the maximum the wrapping
i64 increment overflows to the i64 minimum); and every execution that fails
leaves the database, and hence every counter, unchanged. -/
theorem download_count_exactly_one (store : Store) (rawName rawVersion : String)
    (db : DB) (hwf : db.wf) :
    (∀ db' resp,
      download.get store rawName rawVersion db = .response db' (.ok resp) →
      ∀ d, downloadsOf db (canonical_name rawName) = some d → d < 2 ^ 63 - 1 →
        downloadsOf db' (canonical_name rawName) = some (d + 1)) ∧
    (∀ db' res, download.get store rawName rawVersion db = .response db' res →
      ∀ c d, downloadsOf db c = some d → d < 2 ^ 63 - 1 →
        ∃ d', downloadsOf db' c = some d' ∧ d ≤ d') ∧
    (∀ db' e,
      download.get store rawName rawVersion db = .response db' (.error e) →
      db' = db) := by
  refine ⟨?_, ?_, ?_⟩
  · intro db' resp h d hd hlt
    rcases hv : parseVersion rawVersion with _ | version
    · rw [get_panicked_eq store rawName rawVersion db hv] at h
      simp at h
    · rcases hf : db.rows.find? (fun row => row.canon_name == canonical_name rawName)
        with _ | r
      · rw [get_crate_not_found_eq store rawName rawVersion db version hv hf] at h
        simp at h
      · rcases hs : store r.name version with bytes | _ | _
        · rw [get_found_eq store rawName rawVersion db version r bytes hv hf hs] at h
          simp at h
          obtain ⟨hdb', -⟩ := h
          subst hdb'
          simp only [downloadsOf, hf, Option.map_some', Option.some_inj] at hd
          have hrange := (hwf.1 r (List.mem_of_find?_eq_some hf)).2
          have hw : wrap64 (r.downloads + 1) = r.downloads + 1 :=
            wrap64_eq_self (by omega) (by omega)
          rw [hd] at hw
          simp only [downloadsOf, find?_updateDownloadsByName, hf, Option.map_some']
          simp [setDownloads, hw, hd]
        · rw [get_artifact_missing_eq store rawName rawVersion db version r hv hf hs] at h
          simp at h
        · rw [get_storage_io_eq store rawName rawVersion db version r hv hf hs] at h
          simp at h
  · intro db' res h c d hd hlt
    rcases hv : parseVersion rawVersion with _ | version
    · rw [get_panicked_eq store rawName rawVersion db hv] at h
      simp at h
    · rcases hf : db.rows.find? (fun row => row.canon_name == canonical_name rawName)
        with _ | r
      · rw [get_crate_not_found_eq store rawName rawVersion db version hv hf] at h
        simp at h
        obtain ⟨hdb', -⟩ := h
        exact ⟨d, by rw [← hdb']; exact hd, le_refl d⟩
      · rcases hs : store r.name version with bytes | _ | _
        · rw [get_found_eq store rawName rawVersion db version r bytes hv hf hs] at h
          simp at h
          obtain ⟨hdb', -⟩ := h
          subst hdb'
          simp only [downloadsOf] at hd
          rcases hc : db.rows.find? (fun row => row.canon_name == c) with _ | r1 <;>
            rw [hc] at hd
          · simp at hd
          · simp only [Option.map_some', Option.some_inj] at hd
            simp only [downloadsOf, find?_updateDownloadsByName, hc, Option.map_some']
            by_cases hn : r1.name = r.name
            · have hr1 : r1 = r :=
                row_eq_of_name_eq hwf (List.mem_of_find?_eq_some hc)
                  (List.mem_of_find?_eq_some hf) hn
              have hdr : r.downloads = d := by
                rw [← hr1]
                exact hd
              have hrange := (hwf.1 r (List.mem_of_find?_eq_some hf)).2
              have hw : wrap64 (r.downloads + 1) = r.downloads + 1 :=
                wrap64_eq_self (by omega) (by omega)
              refine ⟨r.downloads + 1, by simp [setDownloads, hn, hw], ?_⟩
              omega
            · refine ⟨d, ?_, le_refl d⟩
              simp [setDownloads, hn, hd]
        · rw [get_artifact_missing_eq store rawName rawVersion db version r hv hf hs] at h
          simp at h
          obtain ⟨hdb', -⟩ := h
          exact ⟨d, by rw [← hdb']; exact hd, le_refl d⟩
        · rw [get_storage_io_eq store rawName rawVersion db version r hv hf hs] at h
          simp at h
          obtain ⟨hdb', -⟩ := h
          exact ⟨d, by rw [← hdb']; exact hd, le_refl d⟩
  · intro db' e h
    rcases hv : parseVersion rawVersion with _ | version
    · rw [get_panicked_eq store rawName rawVersion db hv] at h
      simp at h
    · rcases hf : db.rows.find? (fun row => row.canon_name == canonical_name rawName)
        with _ | r
      · rw [get_crate_not_found_eq store rawName rawVersion db version hv hf] at h
        simp at h
        exact h.1.symm
      · rcases hs : store r.name version with bytes | _ | _
        · rw [get_found_eq store rawName rawVersion db version r bytes hv hf hs] at h
          simp at h
        · rw [get_artifact_missing_eq store rawName rawVersion db version r hv hf hs] at h
          simp at h
          exact h.1.symm
        · rw [get_storage_io_eq store rawName rawVersion db version r hv hf hs] at h
          simp at h
          exact h.1.symm

/-- Witness for the amended C1 theorem: downloading `foo` once from a
one-row database with counter 5, below the i64 maximum, takes it to 6. -/
theorem download_count_exactly_one_witness :
    downloadsOf (⟨[⟨"foo", "foo", 6⟩]⟩ : DB) (canonical_name "foo") = some (5 + 1) := by
  have h := download_count_exactly_one wstore "foo" "1.0.0"
    ⟨[⟨"foo", "foo", 5⟩]⟩ (by decide)
  exact h.1 ⟨[⟨"foo", "foo", 6⟩]⟩
    ⟨200, some "application/octet-stream", .bytes [7], none⟩ (by decide) 5 (by decide)
    (by decide)

/-- Claim C2 counterexample: two concurrent downloads of the crate `foo`
whose select and update statements interleave (read, read, write, write)
both complete, yet the counter rises from 5 to 6, not to 7 — one update is
lost. -/
theorem concurrent_downloads_lose_update :
    runSched "foo" [0, 1, 0, 1] (⟨[⟨"foo", "foo", 5⟩]⟩, [.start, .start]) =
      (⟨[⟨"foo", "foo", 6⟩]⟩, [.finished, .finished]) ∧
    downloadsOf ⟨[⟨"foo", "foo", 6⟩]⟩ "foo" ≠ some (5 + 2) :=
  ⟨by decide, by decide⟩

/-- Claim C2 amended: n downloads of the same crate increase its counter by
exactly n when the handler executions are serialized, each transaction
committing before the next begins and the counter staying below the i64
maximum throughout; interleaved select-then-update statements can lose
updates, as the counterexample shows. -/
theorem serial_downloads_add (store : Store) (rawName rawVersion : String)
    (version : Version) (hv : parseVersion rawVersion = some version) (n : Nat) :
    ∀ (db : DB), db.wf →
      ∀ r, db.rows.find? (fun row => row.canon_name == canonical_name rawName) = some r →
        (∃ bytes, store r.name version = .found bytes) →
        r.downloads + (n : Int) ≤ 2 ^ 63 - 1 →
        downloadsOf (iterDownload store rawName rawVersion n db) (canonical_name rawName) =
          some (r.downloads + (n : Int)) := by
  induction n with
  | zero =>
    intro db _ r hf _ _
    simp [iterDownload, downloadsOf, hf]
  | succ n ih =>
    intro db hwf r hf hb hbound
    obtain ⟨bytes, hs⟩ := hb
    have hrange := (hwf.1 r (List.mem_of_find?_eq_some hf)).2
    have hw : wrap64 (r.downloads + 1) = r.downloads + 1 :=
      wrap64_eq_self (by omega) (by omega)
    have hget := get_found_eq store rawName rawVersion db version r bytes hv hf hs
    rw [hw] at hget
    have hdb1 : getDB store rawName rawVersion db =
        updateDownloadsByName db r.name (r.downloads + 1) := by
      unfold getDB
      rw [hget]
    simp only [iterDownload, hdb1]
    have hf1 : (updateDownloadsByName db r.name (r.downloads + 1)).rows.find?
        (fun row => row.canon_name == canonical_name rawName) =
        some (setDownloads r.name (r.downloads + 1) r) := by
      rw [find?_updateDownloadsByName, hf, Option.map_some']
    have hset : setDownloads r.name (r.downloads + 1) r =
        ⟨r.name, r.canon_name, r.downloads + 1⟩ := by
      simp [setDownloads]
    rw [hset] at hf1
    have hres := ih (updateDownloadsByName db r.name (r.downloads + 1))
      (wf_updateDownloadsByName hwf r.name (r.downloads + 1) (by omega) (by omega))
      ⟨r.name, r.canon_name, r.downloads + 1⟩ hf1 ⟨bytes, hs⟩ (by
        show r.downloads + 1 + (n : Int) ≤ 2 ^ 63 - 1
        omega)
    rw [hres]
    congr 1
    push_cast
    ring

/-- Witness for the amended C2 theorem: three serialized downloads of `foo`
take its counter from 5 to 8. -/
theorem serial_downloads_add_witness :
    downloadsOf (iterDownload wstore "foo" "1.0.0" 3 ⟨[⟨"foo", "foo", 5⟩]⟩)
      (canonical_name "foo") = some (5 + (3 : Nat)) :=
  serial_downloads_add wstore "foo" "1.0.0" ⟨1, 0, 0⟩ (by decide) 3
    ⟨[⟨"foo", "foo", 5⟩]⟩ (by decide) ⟨"foo", "foo", 5⟩ (by decide) ⟨[7], by decide⟩
    (by decide)

/-- Claim C3: when the crate row exists but the artifact store lacks the
requested artifact, the handler leaves the database unchanged (the unit of
work rolls back) and fails with the artifact-not-found error, a kind
distinct both from crate-not-found and from the generic storage error. -/
theorem artifact_missing_rolls_back (store : Store) (rawName rawVersion : String)
    (db : DB) (version : Version) (r : CrateRow)
    (hv : parseVersion rawVersion = some version)
    (hf : db.rows.find? (fun row => row.canon_name == canonical_name rawName) = some r)
    (hs : store r.name version = .notFound) :
    download.get store rawName rawVersion db =
      .response db (.error .artifactNotFound) ∧
    (∀ n, (DlError.artifactNotFound : DlError) ≠ .crateNotFound n) ∧
    (DlError.artifactNotFound : DlError) ≠ .storageIo := by
  refine ⟨get_artifact_missing_eq store rawName rawVersion db version r hv hf hs, ?_, ?_⟩
  · intro n h
    cases h
  · intro h
    cases h

/-- Witness for the C3 theorem: downloading `bar`, whose artifact is absent
from the fixture store, fails with artifact-not-found and leaves the one-row
database untouched. -/
theorem artifact_missing_rolls_back_witness :
    download.get wstore "bar" "1.0.0" ⟨[⟨"bar", "bar", 3⟩]⟩ =
      .response ⟨[⟨"bar", "bar", 3⟩]⟩ (.error .artifactNotFound) :=
  (artifact_missing_rolls_back wstore "bar" "1.0.0" ⟨[⟨"bar", "bar", 3⟩]⟩
    ⟨1, 0, 0⟩ ⟨"bar", "bar", 3⟩ (by decide) (by decide) (by decide)).1

/-- Claim C4 counterexample: requesting the crate named `Foo` against an
empty database yields `CrateNotFound` carrying the canonicalized name `foo`,
which differs from the requested name `Foo`. -/
theorem crate_not_found_carries_canonical_cex :
    download.get wstore "Foo" "1.0.0" ⟨[]⟩ =
      .response ⟨[]⟩ (.error (.crateNotFound "foo")) ∧
    DlError.crateNotFound "foo" ≠ DlError.crateNotFound "Foo" :=
  ⟨by decide, by decide⟩

/-- Claim C4 amended: when the canonical name of the requested crate matches
no row, the handler returns `CrateNotFound` carrying the canonicalized form
of the requested name and performs zero database mutations. -/
theorem crate_not_found_no_mutation (store : Store) (rawName rawVersion : String)
    (db : DB) (version : Version)
    (hv : parseVersion rawVersion = some version)
    (hf : db.rows.find? (fun row => row.canon_name == canonical_name rawName) = none) :
    download.get store rawName rawVersion db =
      .response db (.error (.crateNotFound (canonical_name rawName))) :=
  get_crate_not_found_eq store rawName rawVersion db version hv hf

/-- Witness for the amended C4 theorem at a one-row database and an unknown
crate name. -/
theorem crate_not_found_no_mutation_witness :
    download.get wstore "nope" "1.0.0" ⟨[⟨"foo", "foo", 5⟩]⟩ =
      .response ⟨[⟨"foo", "foo", 5⟩]⟩ (.error (.crateNotFound (canonical_name "nope"))) :=
  crate_not_found_no_mutation wstore "nope" "1.0.0" ⟨[⟨"foo", "foo", 5⟩]⟩
    ⟨1, 0, 0⟩ (by decide) (by decide)

/-- Claim C5 counterexample: a download of a crate that does not exist
reaches the client with wire status 200, not the 404 stated by the interface
table — the terminal middleware normalizes every error status. -/
theorem error_status_not_distinguished_cex :
    (apiDownload wstore "nope" "1.0.0" ⟨[]⟩).map Response.status = some 200 ∧
    (200 : Nat) ≠ 404 :=
  ⟨by decide, by decide⟩

/-- Claim C5 amended: every failing download that produces a response is
normalized by the terminal middleware to wire status 200 with a JSON body
carrying an array of error objects with a human-readable detail string; the
failure kind is distinguished by the detail text, not by the status code. -/
theorem error_responses_normalized (store : Store) (rawName rawVersion : String)
    (db db' : DB) (e : DlError)
    (h : download.get store rawName rawVersion db = .response db' (.error e)) :
    apiDownload store rawName rawVersion db =
      some { status := 200, contentType := some "application/json",
             body := .jsonErrors [errDetail e], error := some e } := by
  unfold apiDownload
  rw [h]
  rfl

/-- Witness for the amended C5 theorem: the crate-not-found failure surfaces
as a 200 JSON error body. -/
theorem error_responses_normalized_witness :
    apiDownload wstore "nope" "1.0.0" ⟨[]⟩ =
      some { status := 200, contentType := some "application/json",
             body := .jsonErrors [errDetail (.crateNotFound "nope")],
             error := some (.crateNotFound "nope") } :=
  error_responses_normalized wstore "nope" "1.0.0" ⟨[]⟩ ⟨[]⟩
    (.crateNotFound "nope") (by decide)

/-- Claim C6, the code evaluated at the failing input: with a syntactically
invalid version segment the handler panics on the unwrap of the version
parse result instead of rejecting the request with a bad-request error. -/
theorem invalid_version_panics :
    download.get wstore "foo" "not-a-semver" ⟨[⟨"foo", "foo", 5⟩]⟩ = .panicked := by
  decide

/-- Claim C7: when the matched crate row exists and the store holds the
artifact bytes, the externally visible response of the pipeline has status
200, content type `application/octet-stream`, and a body byte-identical to
the stored bytes. -/
theorem successful_download_response (store : Store) (rawName rawVersion : String)
    (db : DB) (version : Version) (r : CrateRow) (bytes : List Nat)
    (hv : parseVersion rawVersion = some version)
    (hf : db.rows.find? (fun row => row.canon_name == canonical_name rawName) = some r)
    (hs : store r.name version = .found bytes) :
    apiDownload store rawName rawVersion db =
      some { status := 200, contentType := some "application/octet-stream",
             body := .bytes bytes, error := none } := by
  unfold apiDownload
  rw [get_found_eq store rawName rawVersion db version r bytes hv hf hs]
  rfl

/-- Witness for the C7 theorem: downloading `foo` at `1.0.0` returns the
stored bytes `[7]` unchanged. -/
theorem successful_download_response_witness :
    apiDownload wstore "foo" "1.0.0" ⟨[⟨"foo", "foo", 5⟩]⟩ =
      some { status := 200, contentType := some "application/octet-stream",
             body := .bytes [7], error := none } :=
  successful_download_response wstore "foo" "1.0.0" ⟨[⟨"foo", "foo", 5⟩]⟩
    ⟨1, 0, 0⟩ ⟨"foo", "foo", 5⟩ [7] (by decide) (by decide) (by decide)

/-- Claim C8 counterexample: two distinct rows share the display name `foo`
with counters 5 and 10; a successful download matching the first row sets
both counters to 6 — the second row is overwritten, not incremented. -/
theorem display_name_update_not_increment_cex :
    download.get allStore "foo" "1.0.0" ⟨[⟨"foo", "foo", 5⟩, ⟨"foo", "bar", 10⟩]⟩ =
      .response ⟨[⟨"foo", "foo", 6⟩, ⟨"foo", "bar", 6⟩]⟩
        (.ok ⟨200, some "application/octet-stream", .bytes [7], none⟩) ∧
    (6 : Int) ≠ 10 + 1 :=
  ⟨by decide, by decide⟩

/-- Claim C8 amended: the counter update filters rows by the display name
column, not by the canonical name used for the lookup: a successful download
sets the downloads value of every row sharing the looked-up row display name
to the wrapping i64 sum of the value read from the looked-up row and one —
an increment only for rows whose value equalled the read value (and the read
value below the i64 maximum). -/
theorem update_filters_by_display_name (store : Store) (rawName rawVersion : String)
    (db : DB) (version : Version) (r : CrateRow) (bytes : List Nat)
    (hv : parseVersion rawVersion = some version)
    (hf : db.rows.find? (fun row => row.canon_name == canonical_name rawName) = some r)
    (hs : store r.name version = .found bytes) :
    ∃ resp, download.get store rawName rawVersion db =
      .response ⟨db.rows.map (fun row =>
          if row.name == r.name then { row with downloads := wrap64 (r.downloads + 1) }
          else row)⟩
        (.ok resp) :=
  ⟨_, get_found_eq store rawName rawVersion db version r bytes hv hf hs⟩

/-- Witness for the amended C8 theorem at the two-row database sharing the
display name `foo`. -/
theorem update_filters_by_display_name_witness :
    ∃ resp, download.get allStore "foo" "1.0.0"
        ⟨[⟨"foo", "foo", 5⟩, ⟨"foo", "bar", 10⟩]⟩ =
      .response ⟨[⟨"foo", "foo", 6⟩, ⟨"foo", "bar", 6⟩]⟩ (.ok resp) :=
  update_filters_by_display_name allStore "foo" "1.0.0"
    ⟨[⟨"foo", "foo", 5⟩, ⟨"foo", "bar", 10⟩]⟩ ⟨1, 0, 0⟩ ⟨"foo", "foo", 5⟩ [7]
    (by decide) (by decide) (by decide)

/-- Claim C9: the terminal error-normalizing middleware returns every
error-free response unchanged, and rewrites exactly the status, content type
and body when the response carries an error. -/
theorem middleware_error_frame (res : Response) :
    (res.error = none → errorMiddleware res = res) ∧
    (∀ e, res.error = some e →
      errorMiddleware res =
        { res with status := 200, contentType := some "application/json",
                   body := .jsonErrors [errDetail e] }) := by
  constructor
  · intro h
    unfold errorMiddleware
    rw [h]
  · intro e h
    unfold errorMiddleware
    rw [h]

/-- Witness for the C9 theorem: a successful octet-stream response passes
through the middleware unchanged. -/
theorem middleware_error_frame_witness :
    errorMiddleware ⟨200, some "application/octet-stream", .bytes [7], none⟩ =
      ⟨200, some "application/octet-stream", .bytes [7], none⟩ :=
  (middleware_error_frame ⟨200, some "application/octet-stream", .bytes [7], none⟩).1 rfl

/-- Claim C10: every completed handler execution leaves a database with
exactly the same rows in the same order, each keeping its name and canonical
name — the handler never inserts or deletes rows and mutates at most the
downloads column. -/
theorem handler_touches_only_downloads (store : Store) (rawName rawVersion : String)
    (db db' : DB) (res : Except DlError Response)
    (h : download.get store rawName rawVersion db = .response db' res) :
    List.Forall₂
      (fun row row' => row'.name = row.name ∧ row'.canon_name = row.canon_name)
      db.rows db'.rows := by
  have hrefl : ∀ l : List CrateRow,
      List.Forall₂
        (fun row row' => row'.name = row.name ∧ row'.canon_name = row.canon_name)
        l l :=
    fun l => List.forall₂_same.2 (fun x _ => ⟨rfl, rfl⟩)
  rcases hv : parseVersion rawVersion with _ | version
  · rw [get_panicked_eq store rawName rawVersion db hv] at h
    simp at h
  · rcases hf : db.rows.find? (fun row => row.canon_name == canonical_name rawName)
      with _ | r
    · rw [get_crate_not_found_eq store rawName rawVersion db version hv hf] at h
      simp at h
      rw [← h.1]
      exact hrefl db.rows
    · rcases hs : store r.name version with bytes | _ | _
      · rw [get_found_eq store rawName rawVersion db version r bytes hv hf hs] at h
        simp at h
        obtain ⟨hdb', -⟩ := h
        rw [← hdb']
        show List.Forall₂ _ db.rows
          (db.rows.map (setDownloads r.name (wrap64 (r.downloads + 1))))
        rw [List.forall₂_map_right_iff]
        exact List.forall₂_same.2
          (fun x _ => ⟨setDownloads_name r.name (wrap64 (r.downloads + 1)) x,
            setDownloads_canon r.name (wrap64 (r.downloads + 1)) x⟩)
      · rw [get_artifact_missing_eq store rawName rawVersion db version r hv hf hs] at h
        simp at h
        rw [← h.1]
        exact hrefl db.rows
      · rw [get_storage_io_eq store rawName rawVersion db version r hv hf hs] at h
        simp at h
        rw [← h.1]
        exact hrefl db.rows

/-- Witness for the C10 theorem: the successful download of `foo` keeps the
single row, its name and its canonical name. -/
theorem handler_touches_only_downloads_witness :
    List.Forall₂
      (fun row row' => row'.name = row.name ∧ row'.canon_name = row.canon_name)
      [(⟨"foo", "foo", 5⟩ : CrateRow)] [(⟨"foo", "foo", 6⟩ : CrateRow)] :=
  handler_touches_only_downloads wstore "foo" "1.0.0" ⟨[⟨"foo", "foo", 5⟩]⟩
    ⟨[⟨"foo", "foo", 6⟩]⟩
    (.ok ⟨200, some "application/octet-stream", .bytes [7], none⟩) (by decide)
